import Mathlib

/-
Verification of the legacy TextSecure session-protocol core (helpers.js-era
crypto module of the repository).  Byte strings are modelled as `List Nat`
(each entry one octet); JavaScript's duck-typed string/ArrayBuffer values all
collapse to this one type (`getString`/`toArrayBuffer` become the identity).
External primitives (curve25519, AES-CTR, the WebCrypto HMAC) are passed in
as function parameters bundled in `Prims`; HMAC-SHA256 itself is additionally
implemented concretely below so that claims about the exact derivation
formulas can be settled against the real hash.
-/

set_option maxRecDepth 100000

namespace TextSecure

abbrev Bytes := List Nat

/-! ### Association-list maps (JavaScript object semantics)

JS objects keyed by strings are modelled as association lists with
insertion-order preservation: assignment overwrites an existing key in place
or appends, `delete` removes the key. -/

def alookup {α β : Type} [DecidableEq α] (m : List (α × β)) (k : α) : Option β :=
  match m with
  | [] => none
  | (k', v) :: rest => if k' = k then some v else alookup rest k

def ainsert {α β : Type} [DecidableEq α] (m : List (α × β)) (k : α) (v : β) :
    List (α × β) :=
  match m with
  | [] => [(k, v)]
  | (k', v') :: rest => if k' = k then (k, v) :: rest else (k', v') :: ainsert rest k v

def aerase {α β : Type} [DecidableEq α] (m : List (α × β)) (k : α) : List (α × β) :=
  m.filter (fun p => p.1 ≠ k)

/-! ### SHA-256 and HMAC-SHA256 (FIPS 180-4 / RFC 2104)

A concrete executable model of the external `HmacSHA256` primitive the
source calls. Word arithmetic is `Nat` reduced mod `2^32`. -/

def w32 (n : Nat) : Nat := n % 4294967296

def rotr (n x : Nat) : Nat := w32 ((x >>> n) ||| (x <<< (32 - n)))

def bsig0 (x : Nat) : Nat := rotr 2 x ^^^ rotr 13 x ^^^ rotr 22 x

def bsig1 (x : Nat) : Nat := rotr 6 x ^^^ rotr 11 x ^^^ rotr 25 x

def ssig0 (x : Nat) : Nat := rotr 7 x ^^^ rotr 18 x ^^^ (x >>> 3)

def ssig1 (x : Nat) : Nat := rotr 17 x ^^^ rotr 19 x ^^^ (x >>> 10)

def chf (x y z : Nat) : Nat := (x &&& y) ^^^ ((x ^^^ 4294967295) &&& z)

def majf (x y z : Nat) : Nat := (x &&& y) ^^^ (x &&& z) ^^^ (y &&& z)

def shaK : List Nat :=
  [1116352408, 1899447441, 3049323471, 3921009573, 961987163, 1508970993,
   2453635748, 2870763221, 3624381080, 310598401, 607225278, 1426881987,
   1925078388, 2162078206, 2614888103, 3248222580, 3835390401, 4022224774,
   264347078, 604807628, 770255983, 1249150122, 1555081692, 1996064986,
   2554220882, 2821834349, 2952996808, 3210313671, 3336571891, 3584528711,
   113926993, 338241895, 666307205, 773529912, 1294757372, 1396182291,
   1695183700, 1986661051, 2177026350, 2456956037, 2730485921, 2820302411,
   3259730800, 3345764771, 3516065817, 3600352804, 4094571909, 275423344,
   430227734, 506948616, 659060556, 883997877, 958139571, 1322822218,
   1537002063, 1747873779, 1955562222, 2024104815, 2227730452, 2361852424,
   2428436474, 2756734187, 3204031479, 3329325298]

def shaH0 : List Nat :=
  [1779033703, 3144134277, 1013904242, 2773480762,
   1359893119, 2600822924, 528734635, 1541459225]

def be32at (b : Bytes) (i : Nat) : Nat :=
  b.getD i 0 * 16777216 + b.getD (i + 1) 0 * 65536 + b.getD (i + 2) 0 * 256 +
    b.getD (i + 3) 0

def blockWords (b : Bytes) : List Nat :=
  (List.range 16).map (fun i => be32at b (4 * i))

def extendWords (w : List Nat) : List Nat :=
  (List.range 48).foldl
    (fun w i =>
      w ++ [w32 (ssig1 (w.getD (i + 14) 0) + w.getD (i + 9) 0 +
                 ssig0 (w.getD (i + 1) 0) + w.getD i 0)])
    w

def shaRound (st : List Nat) (kw : Nat) : List Nat :=
  match st with
  | [a, b, c, d, e, f, g, h] =>
    let t1 := w32 (h + bsig1 e + chf e f g + kw)
    let t2 := w32 (bsig0 a + majf a b c)
    [w32 (t1 + t2), a, b, c, w32 (d + t1), e, f, g]
  | other => other

def compress (h : List Nat) (block : Bytes) : List Nat :=
  let w := extendWords (blockWords block)
  let st := (List.range 64).foldl
    (fun st i => shaRound st (w32 (shaK.getD i 0 + w.getD i 0))) h
  List.zipWith (fun a b => w32 (a + b)) h st

def be64 (n : Nat) : Bytes :=
  [(n >>> 56) % 256, (n >>> 48) % 256, (n >>> 40) % 256, (n >>> 32) % 256,
   (n >>> 24) % 256, (n >>> 16) % 256, (n >>> 8) % 256, n % 256]

def sha256pad (msg : Bytes) : Bytes :=
  msg ++ 128 :: List.replicate ((64 - (msg.length + 9) % 64) % 64) 0 ++
    be64 (8 * msg.length)

def chunks64Go : Nat → Bytes → List Bytes
  | 0, _ => []
  | _, [] => []
  | fuel + 1, a :: rest => ((a :: rest).take 64) :: chunks64Go fuel ((a :: rest).drop 64)

/-- Split a byte list into 64-byte blocks.  The fuel argument of
`chunks64Go` only serves structural termination: dropping 64 elements of a
nonempty list shrinks it, so `l.length` steps always suffice. -/
def chunks64 (l : Bytes) : List Bytes := chunks64Go l.length l

def wordsToBytes (ws : List Nat) : Bytes :=
  ws.foldr
    (fun w acc =>
      (w >>> 24) % 256 :: (w >>> 16) % 256 :: (w >>> 8) % 256 :: w % 256 :: acc)
    []

def sha256 (msg : Bytes) : Bytes :=
  wordsToBytes ((chunks64 (sha256pad msg)).foldl compress shaH0)

/-- HMAC-SHA256 with key and message as byte lists; this is the model of the
external `HmacSHA256(key, input)` primitive used throughout the source. -/
def hmacSHA256 (key msg : Bytes) : Bytes :=
  let k0 := if key.length > 64 then sha256 key else key
  let k := k0 ++ List.replicate (64 - k0.length) 0
  sha256 (k.map (fun b => b ^^^ 92) ++ sha256 (k.map (fun b => b ^^^ 54) ++ msg))

-- FIPS 180-4 test vector: SHA-256 of the three bytes of the word abc.
example :
    sha256 [97, 98, 99] =
      [186, 120, 22, 191, 143, 1, 207, 234, 65, 65, 64, 222, 93, 174, 34, 35,
       176, 3, 97, 163, 150, 23, 122, 156, 180, 16, 255, 97, 242, 0, 21, 173] := by
  decide

-- RFC 4231 test case 1.
example :
    hmacSHA256 (List.replicate 20 11) [72, 105, 32, 84, 104, 101, 114, 101] =
      [176, 52, 76, 97, 216, 219, 56, 83, 92, 168, 175, 206, 175, 11, 241, 43,
       136, 29, 194, 0, 201, 131, 61, 167, 38, 233, 55, 108, 46, 50, 207, 247] := by
  decide

/-! ### External primitives

`curve25519`, AES-CTR and the promise-based `HmacSHA256` are collaborators
the source calls out to; protocol-level definitions receive them as a
parameter bundle.  `ecdh pub priv` stands for the full `ECDHE(pubKey,
privKey)` call (its length-validation throw paths are modelled separately by
`ECDHE` below, used by the claim about generated key pairs). -/

structure Prims where
  hmac : Bytes → Bytes → Bytes
  ecdh : Bytes → Bytes → Bytes
  curve : Bytes → Bytes
  aesCtrEnc : Bytes → Bytes → Int → Bytes
  aesCtrDec : Bytes → Bytes → Int → Bytes

structure KeyPair where
  pubKey : Bytes
  privKey : Bytes
  deriving DecidableEq

/-- The `prependVersion` closure of `crypto_tests.privToPub`: allocate 33
bytes, copy the first 32 bytes of the public point into positions 1..32
(missing bytes read as 0, as a `Uint8Array` read of an absent index does),
and set byte 0 to the version value 5. -/
def prependVersion (pubKey : Bytes) : Bytes :=
  5 :: (pubKey ++ List.replicate 32 0).take 32

/-- The byte-level effect of the `Uint16Array` bit twiddling in
`crypto_tests.privToPub`: `priv[0] &= 0xFFF8` clears the low three bits of
byte 0 (the words are little-endian), `priv[15] = (priv[15] & 0x7FFF) |
0x4000` clears the top bit and sets bit 6 of byte 31, and non-identity keys
get `priv[0] |= 0x0001`. -/
def clampPriv (isIdentity : Bool) (priv : Bytes) : Bytes :=
  let b0 := priv.getD 0 0 &&& 248
  let b0 := if isIdentity then b0 else b0 ||| 1
  let b31 := priv.getD 31 0 &&& 127 ||| 64
  (priv.set 0 b0).set 31 b31

/-- `crypto_tests.privToPub` (the `USE_NACL = false` branch): reject private
keys that are not 32 bytes, clamp the scalar, and pair the clamped private
key with the version-prefixed curve25519 public point. -/
def privToPub (curve : Bytes → Bytes) (isIdentity : Bool) (privKey : Bytes) :
    Option KeyPair :=
  if privKey.length = 32 then
    let priv := clampPriv isIdentity privKey
    some { pubKey := prependVersion (curve priv), privKey := priv }
  else none

/-- `crypto_tests.createNewKeyPair`: `privToPub(getRandomBytes(32), ...)`;
the random source is passed in as `entropy`. -/
def createNewKeyPair (curve : Bytes → Bytes) (isIdentity : Bool)
    (entropy : Bytes) : Option KeyPair :=
  privToPub curve isIdentity entropy

/-- The argument validation of `crypto_tests.ECDHE`: the private key must be
32 bytes; a 33-byte public key with leading version byte 5 is stripped, a
32-byte one passes unchanged, anything else throws.  `agree priv pub` is the
underlying `curve25519(priv, pub)` call. -/
def ECDHE (agree : Bytes → Bytes → Bytes) (pubKey privKey : Bytes) :
    Option Bytes :=
  if privKey.length = 32 then
    if pubKey.length = 33 ∧ pubKey.getD 0 0 = 5 then
      some (agree privKey (pubKey.drop 1))
    else if pubKey.length = 32 then some (agree privKey pubKey)
    else none
  else none

/-! ### Key derivation -/

/-- `crypto_tests.HKDF(input, salt, info)`: the fixed two-output derivation.
Note the appended bytes really are `0x00` and `0x01` in the source (its own
comment remarks that RFC 5869 would use 1 and 2 here). -/
def HKDF (hmac : Bytes → Bytes → Bytes) (input salt info : Bytes) :
    Bytes × Bytes :=
  let PRK := hmac salt input
  let T1 := hmac PRK (info ++ [0])
  let T2 := hmac PRK (T1 ++ info ++ [1])
  (T1, T2)

/-- The local `HKDF` wrapper of the source: an empty salt is replaced by 32
zero bytes, and any other salt must be exactly 32 bytes (otherwise the
source throws). -/
def HKDFsalted (hmac : Bytes → Bytes → Bytes) (input salt info : Bytes) :
    Option (Bytes × Bytes) :=
  let salt' := if salt = [] then List.replicate 32 0 else salt
  if salt'.length = 32 then some (HKDF hmac input salt' info) else none

def calculateMACWithVersionByte (hmac : Bytes → Bytes → Bytes)
    (data key : Bytes) (version : Nat) : Bytes :=
  hmac key (version :: data)

/-- The comparison performed by `verifyMACWithVersionByte`: the calculated
MAC, truncated to the length of the received MAC, must equal it.  In the
source this check runs inside a promise that is neither returned nor
awaited, so its `Bad MAC` throw can never reach the caller; the protocol
functions below therefore record this boolean without acting on it. -/
def verifyMACWithVersionByte (hmac : Bytes → Bytes → Bytes)
    (data key mac : Bytes) (version : Nat) : Bool :=
  (calculateMACWithVersionByte hmac data key version).take mac.length == mac

/-! ### Ratchet state -/

structure ChainKey where
  counter : Int
  key : Bytes
  deriving DecidableEq

structure Chain where
  messageKeys : List (Int × Bytes)
  chainKey : ChainKey
  deriving DecidableEq

structure Ratchet where
  rootKey : Bytes
  ephemeralKeyPair : KeyPair
  lastRemoteEphemeralKey : Bytes
  deriving DecidableEq

structure OldRatchetEntry where
  added : Nat
  ephemeralKey : Bytes
  deriving DecidableEq

/-- A session object: `currentRatchet`, `oldRatchetList`, and the
chain-per-ephemeral-key entries the source stores directly on the session
object keyed by the public-key byte string. -/
structure Session where
  currentRatchet : Ratchet
  oldRatchetList : List OldRatchetEntry
  chains : List (Bytes × Chain)
  deriving DecidableEq

def infoWhisperText : Bytes :=
  [87, 104, 105, 115, 112, 101, 114, 84, 101, 120, 116]

def infoWhisperRatchet : Bytes :=
  [87, 104, 105, 115, 112, 101, 114, 82, 97, 116, 99, 104, 101, 116]

def infoWhisperMessageKeys : Bytes :=
  [87, 104, 105, 115, 112, 101, 114, 77, 101, 115, 115, 97, 103, 101, 75,
   101, 121, 115]

/-- One iteration of the `fillMessageKeys` while-loop body; `fuel` only
bounds the recursion structurally and is chosen by `fillMessageKeys` as the
exact number of remaining iterations, so it never cuts the loop short: each
pass through the guard `chain.chainKey.counter < counter` increments the
counter by one. -/
def fillMessageKeysGo (hmac : Bytes → Bytes → Bytes) :
    Nat → Chain → Int → Chain
  | 0, chain, _ => chain
  | fuel + 1, chain, counter =>
    if chain.chainKey.counter < counter then
      let mac := hmac chain.chainKey.key [1]
      let key := hmac chain.chainKey.key [2]
      fillMessageKeysGo hmac fuel
        { messageKeys := ainsert chain.messageKeys (chain.chainKey.counter + 1) mac,
          chainKey := { counter := chain.chainKey.counter + 1, key := key } }
        counter
    else chain

/-- `fillMessageKeys(chain, counter)`: while `chain.chainKey.counter <
counter`, derive `mac = HMAC(key, 0x01)` and the next chain key `HMAC(key,
0x02)`, store `messageKeys[counter+1] = mac`, advance.  No upper bound of
any kind is applied to the requested counter. -/
def fillMessageKeys (hmac : Bytes → Bytes → Bytes) (chain : Chain)
    (counter : Int) : Chain :=
  fillMessageKeysGo hmac (counter - chain.chainKey.counter).toNat chain counter

/-! ### Key store

`crypto_storage` persists key pairs under string names (`25519Key` +
keyName) and sessions under `session` + encodedNumber; the names are
modelled by `StoreKey` atoms and numbers.  `storage.removeEncrypted` has an
empty body (a `TODO` stub) in the source, so it is the identity here. -/

inductive StoreKey where
  | identityKey
  | preKey (id : Nat)
  deriving DecidableEq

structure KeyStore where
  keyPairs : List (StoreKey × KeyPair)
  sessions : List (Nat × Session)
  deriving DecidableEq

def getStoredKeyPair (st : KeyStore) (keyName : StoreKey) : Option KeyPair :=
  alookup st.keyPairs keyName

def putStoredKeyPair (st : KeyStore) (keyName : StoreKey) (kp : KeyPair) :
    KeyStore :=
  { st with keyPairs := ainsert st.keyPairs keyName kp }

/-- `storage.removeEncrypted = function(key) { //TODO }` — the body is
empty, so nothing is removed. -/
def removeEncrypted (st : KeyStore) (_keyName : StoreKey) : KeyStore := st

def getAndRemoveStoredKeyPair (st : KeyStore) (keyName : StoreKey) :
    Option KeyPair × KeyStore :=
  (getStoredKeyPair st keyName, removeEncrypted st keyName)

def getAndRemovePreKeyPair (st : KeyStore) (keyId : Nat) :
    Option KeyPair × KeyStore :=
  getAndRemoveStoredKeyPair st (.preKey keyId)

def getIdentityPrivKey (st : KeyStore) : Option Bytes :=
  (getStoredKeyPair st .identityKey).map KeyPair.privKey

def saveSession (st : KeyStore) (encodedNumber : Nat) (s : Session) :
    KeyStore :=
  { st with sessions := ainsert st.sessions encodedNumber s }

def getSession (st : KeyStore) (encodedNumber : Nat) : Option Session :=
  alookup st.sessions encodedNumber

/-! ### Error taxonomy

Constructors correspond to the throw sites and JavaScript failure modes of
the source, except `duplicateMessage`, which mirrors the specification's
`DuplicateMessageError` taxonomy entry and is produced nowhere by this
model (the source has no duplicate-message check). -/

inductive ProtoErr where
  | noSession
  | badVersion
  | decodeFailed
  | missingChain
  | preKeyNotFound
  | invalidKey
  | saltLength
  | undefinedInput
  | duplicateMessage
  deriving DecidableEq

/-! ### Session establishment -/

/-- The shared-secret accumulation of `initSession`.  The first `ECDHE`
result is computed with our identity private key against their ephemeral
public key; the initiator appends (and the responder prepends) the
identity/ephemeral cross term, and `finishInit` appends the
ephemeral/ephemeral term last in both roles. -/
def sharedSecretConcat (P : Prims) (isInitiator : Bool)
    (ourIdentityPrivKey : Bytes) (ourEphemeralKey : KeyPair)
    (theirIdentityPubKey theirEphemeralPubKey : Bytes) : Bytes :=
  let s1 := P.ecdh theirEphemeralPubKey ourIdentityPrivKey
  let s2 := P.ecdh theirIdentityPubKey ourEphemeralKey.privKey
  let s3 := P.ecdh theirEphemeralPubKey ourEphemeralKey.privKey
  if isInitiator then s1 ++ s2 ++ s3 else s2 ++ s1 ++ s3

/-- `initSession`: derive `(rootKey, chainKey)` from the concatenated
secret with an empty salt and the WhisperText label; store the real chain
(counter `-1`) under our ephemeral public key and the placeholder chain
(counter `0xffffffff`, empty key) under theirs. -/
def initSession (P : Prims) (ourIdentityPrivKey : Bytes) (isInitiator : Bool)
    (ourEphemeralKey : KeyPair)
    (theirIdentityPubKey theirEphemeralPubKey : Bytes) : Option Session :=
  (HKDFsalted P.hmac
      (sharedSecretConcat P isInitiator ourIdentityPrivKey ourEphemeralKey
        theirIdentityPubKey theirEphemeralPubKey)
      [] infoWhisperText).map
    fun masterKey =>
      { currentRatchet :=
          { rootKey := masterKey.1, ephemeralKeyPair := ourEphemeralKey,
            lastRemoteEphemeralKey := theirEphemeralPubKey },
        oldRatchetList := [],
        chains :=
          ainsert
            (ainsert [] ourEphemeralKey.pubKey
              { messageKeys := [], chainKey := { counter := -1, key := masterKey.2 } })
            theirEphemeralPubKey
            { messageKeys := [], chainKey := { counter := 4294967295, key := [] } } }

structure PreKeyWhisperMsg where
  preKeyId : Nat
  identityKey : Bytes
  baseKey : Bytes
  message : Bytes
  deriving DecidableEq

/-- `initSessionFromPreKeyWhisperMessage`: fetch-and-remove the referenced
one-time prekey (throwing when absent), then initialise a responder-role
session from the embedded identity and base keys and save it. -/
def initSessionFromPreKeyWhisperMessage (P : Prims) (st : KeyStore)
    (encodedNumber : Nat) (msg : PreKeyWhisperMsg) : Except ProtoErr KeyStore :=
  match getAndRemovePreKeyPair st msg.preKeyId with
  | (none, _) => .error .preKeyNotFound
  | (some preKeyPair, st) =>
    match getIdentityPrivKey st with
    | none => .error .undefinedInput
    | some ourIdentityPrivKey =>
      match initSession P ourIdentityPrivKey false preKeyPair msg.identityKey
          msg.baseKey with
      | none => .error .saltLength
      | some session => .ok (saveSession st encodedNumber session)

/-! ### Diffie-Hellman ratchet step -/

/-- `maybeStepRatchet(session, remoteKey, previousCounter)`: a no-op when a
chain for `remoteKey` exists; otherwise fill the previous remote chain up to
`previousCounter`, delete it if its message-key set is empty or else append
it to `oldRatchetList` with a timestamp (`now`), delete our current
ephemeral chain, derive the receive chain from the root key, rotate to a
fresh ephemeral key pair (built from `entropy`), and derive the send chain
from the intermediate root key. Nothing is ever removed from
`oldRatchetList` (the source's `removeOldChains` call is commented out as a
TODO). -/
def maybeStepRatchet (P : Prims) (entropy : Bytes) (now : Nat)
    (session : Session) (remoteKey : Bytes) (previousCounter : Int) :
    Except ProtoErr Session :=
  if (alookup session.chains remoteKey).isSome then .ok session
  else
    let ratchet := session.currentRatchet
    match alookup session.chains ratchet.lastRemoteEphemeralKey with
    | none => .error .missingChain
    | some previousRatchet =>
      let previousRatchet := fillMessageKeys P.hmac previousRatchet previousCounter
      let chains :=
        if previousRatchet.messageKeys = [] then
          aerase session.chains ratchet.lastRemoteEphemeralKey
        else ainsert session.chains ratchet.lastRemoteEphemeralKey previousRatchet
      let oldList :=
        if previousRatchet.messageKeys = [] then session.oldRatchetList
        else session.oldRatchetList ++
          [{ added := now, ephemeralKey := ratchet.lastRemoteEphemeralKey }]
      let chains := aerase chains ratchet.ephemeralKeyPair.pubKey
      match HKDFsalted P.hmac (P.ecdh remoteKey ratchet.ephemeralKeyPair.privKey)
          ratchet.rootKey infoWhisperRatchet with
      | none => .error .saltLength
      | some masterKey =>
        let chains := ainsert chains remoteKey
          { messageKeys := [], chainKey := { counter := -1, key := masterKey.2 } }
        match createNewKeyPair P.curve false entropy with
        | none => .error .invalidKey
        | some keyPair =>
          match HKDFsalted P.hmac (P.ecdh remoteKey keyPair.privKey) masterKey.1
              infoWhisperRatchet with
          | none => .error .saltLength
          | some masterKey2 =>
            .ok { currentRatchet :=
                    { rootKey := masterKey2.1, ephemeralKeyPair := keyPair,
                      lastRemoteEphemeralKey := remoteKey },
                  oldRatchetList := oldList,
                  chains := ainsert chains keyPair.pubKey
                    { messageKeys := [],
                      chainKey := { counter := -1, key := masterKey2.2 } } }

/-! ### Message decryption -/

structure WhisperMsg where
  ephemeralKey : Bytes
  counter : Int
  previousCounter : Int
  ciphertext : Bytes
  deriving DecidableEq

structure DecOutcome where
  plaintext : Bytes
  macValid : Bool
  deriving DecidableEq

/-- `decryptWhisperMessage(encodedNumber, messageBytes)`.  The protobuf
decoder is external (`decodeWhisperMessageProtobuf`) and passed in as
`decode`.  `macValid` records the comparison the detached
`verifyMACWithVersionByte` promise performs; the source's control flow never
observes it (the `Bad MAC` throw lands in an un-awaited promise), so
decryption and the final callback proceed regardless.  An absent message
key (`chain.messageKeys[counter]` undefined, e.g. after consumption) makes
the source feed `undefined` into the HMAC primitive, which rejects: that
path is `undefinedInput` and, like every error, leaves the persisted store
unchanged (the session is only saved on the success path).  The final
`decodePushMessageContentProtobuf` applied to the plaintext is not
modelled; the raw plaintext is returned. -/
def decryptWhisperMessage (P : Prims) (decode : Bytes → Option WhisperMsg)
    (entropy : Bytes) (now : Nat) (st : KeyStore) (encodedNumber : Nat)
    (messageBytes : Bytes) : Except ProtoErr (DecOutcome × KeyStore) :=
  match getSession st encodedNumber with
  | none => .error .noSession
  | some session =>
    if messageBytes.head? ≠ some 34 then .error .badVersion
    else
      let messageProto := (messageBytes.drop 1).take (messageBytes.length - 9)
      let mac := messageBytes.drop (messageBytes.length - 8)
      match decode messageProto with
      | none => .error .decodeFailed
      | some message =>
        match maybeStepRatchet P entropy now session message.ephemeralKey
            message.previousCounter with
        | .error e => .error e
        | .ok session =>
          match alookup session.chains message.ephemeralKey with
          | none => .error .missingChain
          | some chain =>
            let chain := fillMessageKeys P.hmac chain message.counter
            match alookup chain.messageKeys message.counter with
            | none => .error .undefinedInput
            | some messageKey =>
              match HKDFsalted P.hmac messageKey [] infoWhisperMessageKeys with
              | none => .error .saltLength
              | some keys =>
                let chain :=
                  { chain with messageKeys := aerase chain.messageKeys message.counter }
                let macValid :=
                  verifyMACWithVersionByte P.hmac messageProto keys.2 mac 34
                let plaintext := P.aesCtrDec message.ciphertext keys.1 message.counter
                let session :=
                  { session with
                    chains := ainsert session.chains message.ephemeralKey chain }
                .ok ({ plaintext := plaintext, macValid := macValid },
                     saveSession st encodedNumber session)

/-! ### Message encryption -/

structure DeviceObject where
  encodedNumber : Nat
  identityKey : Bytes
  publicKey : Bytes
  preKeyId : Nat
  deriving DecidableEq

structure EncMsg where
  type : Nat
  body : Bytes
  deriving DecidableEq

/-- The `doEncryptPushMessageContent` closure of `crypto.encryptMessageFor`.
The source reads `chain.counter` — a property that does not exist on the
chain object `{messageKeys, chainKey}`, so its value is `undefined`:
`fillMessageKeys(chain, undefined + 1)` compares the counter against `NaN`
(false) and derives nothing, and `chain.messageKeys[undefined]` is
`undefined`, so the following `HKDF` call feeds `undefined` into the HMAC
primitive and rejects; the callback carrying an encrypted message is never
invoked. -/
def doEncryptPushMessageContent (_P : Prims) (session : Session) :
    Except ProtoErr (Bytes × Session) :=
  match alookup session.chains session.currentRatchet.ephemeralKeyPair.pubKey with
  | none => .error .missingChain
  | some _chain => .error .undefinedInput

/-- `crypto.encryptMessageFor(deviceObject, pushMessageContent)`: with an
existing session, encrypt on it (type 1); with none, build a
PreKeyWhisperMessage instead of failing — generate a fresh base key,
initialise an initiator-role session from the device object's identity key
and prekey bundle, save it, and only then encrypt (type 3).  There is no
no-session failure on this path.  Errors return the store as mutated so
far: the session saved by `initSession` persists even though the
encryption step then fails. -/
def encryptMessageFor (P : Prims) (entropy : Bytes) (st : KeyStore)
    (device : DeviceObject) : Except ProtoErr EncMsg × KeyStore :=
  match getSession st device.encodedNumber with
  | some session =>
    match doEncryptPushMessageContent P session with
    | .error e => (.error e, st)
    | .ok r => (.ok { type := 1, body := r.1 }, saveSession st device.encodedNumber r.2)
  | none =>
    match createNewKeyPair P.curve false entropy with
    | none => (.error .invalidKey, st)
    | some baseKey =>
      match getIdentityPrivKey st with
      | none => (.error .undefinedInput, st)
      | some ourIdentityPrivKey =>
        match initSession P ourIdentityPrivKey true baseKey device.identityKey
            device.publicKey with
        | none => (.error .saltLength, st)
        | some session =>
          let st := saveSession st device.encodedNumber session
          match doEncryptPushMessageContent P session with
          | .error e => (.error e, st)
          | .ok r =>
            (.ok { type := 3, body := r.1 }, saveSession st device.encodedNumber r.2)

/-! ## Supporting lemmas -/

/-- Iterated next-chain-key derivation: `n` applications of
`key ↦ HMAC(key, 0x02)`. -/
def chainKeyIter (hmac : Bytes → Bytes → Bytes) (key : Bytes) : Nat → Bytes
  | 0 => key
  | n + 1 => hmac (chainKeyIter hmac key n) [2]

theorem chainKeyIter_succ_inner (hmac : Bytes → Bytes → Bytes) (key : Bytes) :
    ∀ n, chainKeyIter hmac (hmac key [2]) n = chainKeyIter hmac key (n + 1) := by
  intro n
  induction n with
  | zero => rfl
  | succ n ih => simp [chainKeyIter, ih]

/-- The specification's description of `fillMessageKeys` as a closed-form
functional update: one message key `HMAC(chainKeyIter i, 0x01)` stored at
`counter + 1 + i` for each step `i` of the gap, the chain key advanced by
the gap, and the counter raised to the target (left unchanged when it
already meets or exceeds it). -/
def fillMessageKeysSpec (hmac : Bytes → Bytes → Bytes) (chain : Chain)
    (counter : Int) : Chain :=
  { messageKeys :=
      (List.range (counter - chain.chainKey.counter).toNat).foldl
        (fun (m : List (Int × Bytes)) (i : Nat) =>
          ainsert m (chain.chainKey.counter + 1 + (i : Int))
            (hmac (chainKeyIter hmac chain.chainKey.key i) [1]))
        chain.messageKeys,
    chainKey :=
      { counter := max chain.chainKey.counter counter,
        key := chainKeyIter hmac chain.chainKey.key
          (counter - chain.chainKey.counter).toNat } }

theorem fillGo_eq_spec (hmac : Bytes → Bytes → Bytes) :
    ∀ (n : Nat) (chain : Chain) (counter : Int),
      (counter - chain.chainKey.counter).toNat = n →
      fillMessageKeysGo hmac n chain counter = fillMessageKeysSpec hmac chain counter := by
  intro n
  induction n with
  | zero =>
    intro chain counter h
    have hle : counter ≤ chain.chainKey.counter := by omega
    have hnlt : ¬ chain.chainKey.counter < counter := by omega
    simp only [fillMessageKeysGo, fillMessageKeysSpec, h, List.range_zero,
      List.foldl_nil, chainKeyIter, max_eq_left hle]
  | succ n ih =>
    intro chain counter h
    obtain ⟨m, c, k⟩ := chain
    simp only at h
    have hlt : c < counter := by omega
    have hgap : (counter - (c + 1)).toNat = n := by omega
    have step :
        fillMessageKeysGo hmac (n + 1) ⟨m, c, k⟩ counter =
          fillMessageKeysGo hmac n
            ⟨ainsert m (c + 1) (hmac k [1]), c + 1, hmac k [2]⟩ counter := by
      simp only [fillMessageKeysGo, hlt, if_pos]
    rw [step, ih _ counter hgap]
    simp only [fillMessageKeysSpec, hgap, h]
    refine congrArg₂ Chain.mk ?_ ?_
    · rw [List.range_succ_eq_map, List.foldl_cons, List.foldl_map]
      have hbase :
          ainsert m (c + 1 + (0 : Nat)) (hmac (chainKeyIter hmac k 0) [1]) =
            ainsert m (c + 1) (hmac k [1]) := by
        norm_num [chainKeyIter]
      rw [hbase]
      apply List.foldl_ext
      intro acc i _
      rw [chainKeyIter_succ_inner]
      congr 1
      omega
    · refine congrArg₂ ChainKey.mk ?_ ?_
      · omega
      · rw [chainKeyIter_succ_inner]

theorem fillMessageKeys_eq_spec (hmac : Bytes → Bytes → Bytes) (chain : Chain)
    (counter : Int) :
    fillMessageKeys hmac chain counter = fillMessageKeysSpec hmac chain counter :=
  fillGo_eq_spec hmac _ chain counter rfl

theorem fillMessageKeys_counter_max (hmac : Bytes → Bytes → Bytes)
    (chain : Chain) (counter : Int) :
    (fillMessageKeys hmac chain counter).chainKey.counter =
      max chain.chainKey.counter counter := by
  rw [fillMessageKeys_eq_spec]; rfl

theorem alookup_ainsert_self {α β : Type} [DecidableEq α]
    (m : List (α × β)) (k : α) (v : β) :
    alookup (ainsert m k v) k = some v := by
  induction m with
  | nil => simp [ainsert, alookup]
  | cons p rest ih =>
    obtain ⟨k', v'⟩ := p
    by_cases h : k' = k
    · simp [ainsert, alookup, h]
    · simp [ainsert, alookup, h, ih]

/-! ### Concrete instantiations of the external primitives

Used to apply theorems with hypotheses at specific inputs and to evaluate
the model on concrete scenarios.  `toyHmac` returns 32 bytes like the real
primitive; the toy AES-CTR pair satisfies decrypt-of-encrypt identity by
construction. -/

def toyHmac : Bytes → Bytes → Bytes :=
  fun key msg => List.replicate 32 ((key.sum * 5 + msg.sum * 3 + msg.length) % 251)

def toyPrims : Prims :=
  { hmac := toyHmac,
    ecdh := fun pub priv => pub ++ priv,
    curve := fun p => p,
    aesCtrEnc := fun input key _ => key ++ input,
    aesCtrDec := fun input key _ => input.drop key.length }

/-- Error projection of an `Except` result. -/
def errOf {α : Type} (r : Except ProtoErr α) : Option ProtoErr :=
  match r with
  | .error e => some e
  | .ok _ => none

/-- Success projection of an `Except` result. -/
def okOf {α : Type} (r : Except ProtoErr α) : Option α :=
  match r with
  | .error _ => none
  | .ok a => some a

/-! ## Claim C8 -/

/-- C8 (confirmed): `fillMessageKeys` performs exactly the specified loop:
while `chain.counter < targetCounter` it stores
`messageKeys[chain.counter + 1] = HMAC(chain.key, 0x01)`, replaces the chain
key by `HMAC(chain.key, 0x02)` and increments the counter — equivalently,
the closed form `fillMessageKeysSpec`: one message key
`HMAC(chainKeyIter i, 0x01)` at `counter + 1 + i` per gap step `i`, the
chain key iterated by the gap, the counter raised to
`max counter targetCounter` (so a chain whose counter already meets or
exceeds the target is unchanged, the gap being zero). -/
theorem C8_fillMessageKeys_loop (hmac : Bytes → Bytes → Bytes) (chain : Chain)
    (counter : Int) :
    fillMessageKeys hmac chain counter = fillMessageKeysSpec hmac chain counter :=
  fillMessageKeys_eq_spec hmac chain counter

/-! ## Claim C4 -/

/-- C4 counterexample: a requested counter one million steps beyond the
chain's current counter — far past any sane bound of a few thousand — is
served in full rather than rejected: the loop runs to completion and the
counter reaches the target.  No ratchet-overflow error exists anywhere in
the model (`fillMessageKeys` is total with no error outcome). -/
theorem C4_counterexample :
    (fillMessageKeys toyHmac
        { messageKeys := [], chainKey := { counter := -1, key := [5] } }
        1000000).chainKey.counter = 1000000 := by
  rw [fillMessageKeys_counter_max]
  decide

/-- C4 (corrected, amended claim): `fillMessageKeys` applies no bound at
all to the target counter: for every chain and every target it performs the
complete derivation, leaving the counter at `max chain.counter target`, and
it has no failure outcome — the source recurses until the counter reaches
the target, however large the gap. -/
theorem C4_no_overflow_bound (hmac : Bytes → Bytes → Bytes) (chain : Chain)
    (counter : Int) :
    (fillMessageKeys hmac chain counter).chainKey.counter =
      max chain.chainKey.counter counter :=
  fillMessageKeys_counter_max hmac chain counter

/-! ## Claim C3 -/

/-- C3 counterexample: at a concrete input, the first output of the
derivation is not `HMAC-SHA256(PRK, info || 0x01)` as the claim states —
the source appends `0x00` (`String.fromCharCode(0)`), not `0x01`. -/
theorem C3_counterexample :
    (HKDF hmacSHA256 [1, 2, 3] (List.replicate 32 0) [65]).1 ≠
      hmacSHA256 (hmacSHA256 (List.replicate 32 0) [1, 2, 3]) ([65] ++ [1]) := by
  decide

/-- C3 (corrected, amended claim): for every input key material, salt and
info, the two-output derivation returns exactly the pair `(T1, T2)` with
`PRK = HMAC-SHA256(salt, input)`, `T1 = HMAC-SHA256(PRK, info || 0x00)` and
`T2 = HMAC-SHA256(PRK, T1 || info || 0x01)` — the appended constants are
0x00 and 0x01, one less than the claim's 0x01 and 0x02 (the source comments
that RFC 5869 would use 1 and 2 there). -/
theorem C3_hkdf_formula (input salt info : Bytes) :
    HKDF hmacSHA256 input salt info =
      (hmacSHA256 (hmacSHA256 salt input) (info ++ [0]),
       hmacSHA256 (hmacSHA256 salt input)
         (hmacSHA256 (hmacSHA256 salt input) (info ++ [0]) ++ info ++ [1])) :=
  rfl

/-! ## Claim C7 -/

/-- C7 (confirmed): whenever each party's view of the other's public keys
is consistent (every public key is `pubOf` of the corresponding private
scalar) and the agreement is Diffie-Hellman-commutative, the initiator's
shared-secret concatenation `ECDH(ourIdentityPriv, theirPrekeyPub) ||
ECDH(ourBasePriv, theirIdentityPub) || ECDH(ourBasePriv, theirPrekeyPub)`
is byte-for-byte the responder's mirrored concatenation, so the single
`deriveKeys` call (`HKDF` with empty salt and the WhisperText label) gives
both roles identical `(rootKey, firstChainKey)` — in particular the two
`initSession` results carry equal root keys. -/
theorem C7_x3dh_mirror (P : Prims) (pubOf : Bytes → Bytes)
    (comm : ∀ x y : Bytes, P.ecdh (pubOf x) y = P.ecdh (pubOf y) x)
    (aIdPriv aBasePriv bIdPriv bPrePriv : Bytes) :
    sharedSecretConcat P true aIdPriv ⟨pubOf aBasePriv, aBasePriv⟩
        (pubOf bIdPriv) (pubOf bPrePriv) =
      sharedSecretConcat P false bIdPriv ⟨pubOf bPrePriv, bPrePriv⟩
        (pubOf aIdPriv) (pubOf aBasePriv) ∧
    (initSession P aIdPriv true ⟨pubOf aBasePriv, aBasePriv⟩
          (pubOf bIdPriv) (pubOf bPrePriv)).map
        (fun s => s.currentRatchet.rootKey) =
      (initSession P bIdPriv false ⟨pubOf bPrePriv, bPrePriv⟩
          (pubOf aIdPriv) (pubOf aBasePriv)).map
        (fun s => s.currentRatchet.rootKey) ∧
    HKDFsalted P.hmac
        (sharedSecretConcat P true aIdPriv ⟨pubOf aBasePriv, aBasePriv⟩
          (pubOf bIdPriv) (pubOf bPrePriv)) [] infoWhisperText =
      HKDFsalted P.hmac
        (sharedSecretConcat P false bIdPriv ⟨pubOf bPrePriv, bPrePriv⟩
          (pubOf aIdPriv) (pubOf aBasePriv)) [] infoWhisperText := by
  have hsec :
      sharedSecretConcat P true aIdPriv ⟨pubOf aBasePriv, aBasePriv⟩
          (pubOf bIdPriv) (pubOf bPrePriv) =
        sharedSecretConcat P false bIdPriv ⟨pubOf bPrePriv, bPrePriv⟩
          (pubOf aIdPriv) (pubOf aBasePriv) := by
    show
      P.ecdh (pubOf bPrePriv) aIdPriv ++ P.ecdh (pubOf bIdPriv) aBasePriv ++
          P.ecdh (pubOf bPrePriv) aBasePriv =
        P.ecdh (pubOf aIdPriv) bPrePriv ++ P.ecdh (pubOf aBasePriv) bIdPriv ++
          P.ecdh (pubOf aBasePriv) bPrePriv
    rw [comm bPrePriv aIdPriv, comm bIdPriv aBasePriv, comm bPrePriv aBasePriv]
  refine ⟨hsec, ?_, by rw [hsec]⟩
  simp only [initSession, Option.map_map]
  rw [hsec]
  cases HKDFsalted P.hmac
      (sharedSecretConcat P false bIdPriv ⟨pubOf bPrePriv, bPrePriv⟩
        (pubOf aIdPriv) (pubOf aBasePriv)) [] infoWhisperText <;>
    rfl

/-- Concrete commutative primitives for instantiating `C7_x3dh_mirror`. -/
def commPrims : Prims :=
  { hmac := toyHmac,
    ecdh := fun pub priv => [(pub.sum + priv.sum) % 256],
    curve := fun p => p,
    aesCtrEnc := fun input key _ => key ++ input,
    aesCtrDec := fun input key _ => input.drop key.length }

/-- Witness for C7: the commutativity hypothesis holds for `commPrims`
with `pubOf = id`, and the mirrored-concatenation conclusion follows at the
concrete scalars `[1]`, `[2]`, `[3]`, `[4]`. -/
theorem C7_witness :
    (∀ x y : Bytes, commPrims.ecdh (id x) y = commPrims.ecdh (id y) x) ∧
    (sharedSecretConcat commPrims true [1] ⟨id [2], [2]⟩ (id [3]) (id [4]) =
       sharedSecretConcat commPrims false [3] ⟨id [4], [4]⟩ (id [1]) (id [2]) ∧
     (initSession commPrims [1] true ⟨id [2], [2]⟩ (id [3]) (id [4])).map
         (fun s => s.currentRatchet.rootKey) =
       (initSession commPrims [3] false ⟨id [4], [4]⟩ (id [1]) (id [2])).map
         (fun s => s.currentRatchet.rootKey) ∧
     HKDFsalted commPrims.hmac
         (sharedSecretConcat commPrims true [1] ⟨id [2], [2]⟩ (id [3]) (id [4]))
         [] infoWhisperText =
       HKDFsalted commPrims.hmac
         (sharedSecretConcat commPrims false [3] ⟨id [4], [4]⟩ (id [1]) (id [2]))
         [] infoWhisperText) := by
  have hcomm : ∀ x y : Bytes, commPrims.ecdh (id x) y = commPrims.ecdh (id y) x := by
    intro x y
    simp [commPrims, Nat.add_comm]
  exact ⟨hcomm, C7_x3dh_mirror commPrims id hcomm [1] [2] [3] [4]⟩

/-! ## Claim C10 -/

theorem clampPriv_length (isIdentity : Bool) (priv : Bytes) :
    (clampPriv isIdentity priv).length = priv.length := by
  simp [clampPriv]

/-- C10 (confirmed): every key pair produced by `createNewKeyPair` from 32
bytes of randomness has a 32-byte private key and a 33-byte public key
whose first byte is the version value 5, and therefore passes the length
and version-byte validation of the `ECDHE` agreement primitive. -/
theorem C10_generated_keys_wellformed (curve : Bytes → Bytes)
    (agree : Bytes → Bytes → Bytes) (isIdentity : Bool) (entropy : Bytes)
    (h : entropy.length = 32) :
    ∃ kp, createNewKeyPair curve isIdentity entropy = some kp ∧
      kp.privKey.length = 32 ∧ kp.pubKey.length = 33 ∧
      kp.pubKey.head? = some 5 ∧ (ECDHE agree kp.pubKey kp.privKey).isSome := by
  have hpriv : (clampPriv isIdentity entropy).length = 32 := by
    rw [clampPriv_length, h]
  have hlen : (prependVersion (curve (clampPriv isIdentity entropy))).length = 33 := by
    simp only [prependVersion, List.length_cons, List.length_take,
      List.length_append, List.length_replicate]
    omega
  refine ⟨⟨prependVersion (curve (clampPriv isIdentity entropy)),
           clampPriv isIdentity entropy⟩, ?_, hpriv, hlen, rfl, ?_⟩
  · simp [createNewKeyPair, privToPub, h]
  · simp [ECDHE, hpriv, hlen, prependVersion]

/-- Witness for C10: a concrete 32-byte entropy input with the identity
curve produces a well-formed, `ECDHE`-acceptable key pair. -/
theorem C10_witness :
    (List.replicate 32 9 : Bytes).length = 32 ∧
    (∃ kp, createNewKeyPair (fun p => p) false (List.replicate 32 9) = some kp ∧
      kp.privKey.length = 32 ∧ kp.pubKey.length = 33 ∧
      kp.pubKey.head? = some 5 ∧
      (ECDHE (fun a b => a ++ b) kp.pubKey kp.privKey).isSome) :=
  ⟨by decide,
   C10_generated_keys_wellformed (fun p => p) (fun a b => a ++ b) false
     (List.replicate 32 9) (by decide)⟩

/-! ## Claim C2 -/

/-- Key store holding the local identity key pair and the one-time prekey
with id 1. -/
def c2Store : KeyStore :=
  { keyPairs := [(.identityKey, ⟨[1], [2]⟩), (.preKey 1, ⟨[3], [4]⟩)],
    sessions := [] }

/-- A handshake-initiating message referencing prekey id 1. -/
def c2Msg : PreKeyWhisperMsg :=
  { preKeyId := 1, identityKey := [9], baseKey := [8], message := [] }

/-- C2 (code_bug): consuming prekey id 1 does not erase it.
`getAndRemovePreKeyPair` delegates the erasure to `storage.removeEncrypted`,
whose body is an empty TODO stub, so after a first successful inbound
session establishment referencing prekey 1 the record is still stored
(first component `true`), and a second establishment referencing the same
prekey id also succeeds (second component `true`) instead of failing with a
prekey-not-found error. -/
theorem C2_prekey_not_erased :
    ((okOf (initSessionFromPreKeyWhisperMessage toyPrims c2Store 7 c2Msg)).map
      (fun st1 =>
        ((getStoredKeyPair st1 (.preKey 1)).isSome,
         (okOf (initSessionFromPreKeyWhisperMessage toyPrims st1 8 c2Msg)).isSome))) =
      some (true, true) := by
  decide

/-! ## Claim C6 -/

theorem initSession_isSome (P : Prims) (ourIdPriv : Bytes) (isInit : Bool)
    (ourEph : KeyPair) (tId tEph : Bytes) :
    (initSession P ourIdPriv isInit ourEph tId tEph).isSome := by
  simp [initSession, HKDFsalted]

theorem doEncrypt_no_noSession (P : Prims) (session : Session) :
    doEncryptPushMessageContent P session ≠ .error .noSession := by
  unfold doEncryptPushMessageContent
  cases alookup session.chains session.currentRatchet.ephemeralKeyPair.pubKey <;>
    simp

/-- C6 (corrected, amended claim): for every remote identity with no stored
session, `encryptMessageFor` does not fail with a no-session error — the
send path establishes a session itself: it generates a fresh base key,
initialises an initiator-role session from the device object's identity key
and prekey bundle, and persists it (the store afterwards holds a session
for the number).  The subsequent encryption step then fails on the source's
undefined `chain.counter` read rather than producing a wire message, but no
`NoSessionError` exists on this path. -/
theorem C6_encrypt_creates_session (P : Prims) (entropy : Bytes)
    (st : KeyStore) (device : DeviceObject) (idKp : KeyPair)
    (hNoSession : getSession st device.encodedNumber = none)
    (hEntropy : entropy.length = 32)
    (hId : getStoredKeyPair st .identityKey = some idKp) :
    (encryptMessageFor P entropy st device).1 ≠ .error .noSession ∧
    (getSession (encryptMessageFor P entropy st device).2
        device.encodedNumber).isSome := by
  have hbase : createNewKeyPair P.curve false entropy =
      some ⟨prependVersion (P.curve (clampPriv false entropy)),
            clampPriv false entropy⟩ := by
    simp [createNewKeyPair, privToPub, hEntropy]
  have hidp : getIdentityPrivKey st = some idKp.privKey := by
    simp [getIdentityPrivKey, hId]
  obtain ⟨session, hinit⟩ := Option.isSome_iff_exists.mp
    (initSession_isSome P idKp.privKey true
      ⟨prependVersion (P.curve (clampPriv false entropy)),
       clampPriv false entropy⟩
      device.identityKey device.publicKey)
  have hnoNo := doEncrypt_no_noSession P session
  simp only [encryptMessageFor, hNoSession, hbase, hidp, hinit]
  cases henc : doEncryptPushMessageContent P session with
  | error e =>
    rw [henc] at hnoNo
    constructor
    · simpa using hnoNo
    · simp [getSession, saveSession, alookup_ainsert_self]
  | ok r =>
    constructor
    · simp
    · simp [getSession, saveSession, alookup_ainsert_self]

def c6Store : KeyStore :=
  { keyPairs := [(.identityKey, ⟨[1], [2]⟩)], sessions := [] }

def c6Device : DeviceObject :=
  { encodedNumber := 5, identityKey := [9], publicKey := [8], preKeyId := 1 }

def c6Entropy : Bytes := List.replicate 32 3

/-- C6 counterexample: with no session stored for number 5, the encrypt
path neither fails with a no-session error nor leaves the store without a
session — it establishes and saves one itself, and then fails with the
undefined-chain-counter error of the broken encryption step. -/
theorem C6_counterexample :
    getSession c6Store 5 = none ∧
    errOf (encryptMessageFor toyPrims c6Entropy c6Store c6Device).1 =
      some .undefinedInput ∧
    (getSession (encryptMessageFor toyPrims c6Entropy c6Store c6Device).2 5).isSome =
      true := by
  decide

/-- Witness for C6: the amended theorem applied at the concrete store,
device and entropy of the counterexample scenario. -/
theorem C6_witness :
    (getSession c6Store 5 = none ∧ c6Entropy.length = 32 ∧
     getStoredKeyPair c6Store .identityKey = some ⟨[1], [2]⟩) ∧
    ((encryptMessageFor toyPrims c6Entropy c6Store c6Device).1 ≠
        .error .noSession ∧
     (getSession (encryptMessageFor toyPrims c6Entropy c6Store c6Device).2
         5).isSome) :=
  ⟨⟨by decide, by decide, by decide⟩,
   C6_encrypt_creates_session toyPrims c6Entropy c6Store c6Device ⟨[1], [2]⟩
     (by decide) (by decide) (by decide)⟩

/-! ## Claim C9 -/

/-- A session whose current receive chain (under remote ephemeral key
`[100]`) is fresh. -/
def c9Session : Session :=
  { currentRatchet :=
      { rootKey := List.replicate 32 0, ephemeralKeyPair := ⟨[50], [51]⟩,
        lastRemoteEphemeralKey := [100] },
    oldRatchetList := [],
    chains := [([100],
      { messageKeys := [], chainKey := { counter := -1, key := List.replicate 32 2 } })] }

/-- `n` consecutive Diffie-Hellman ratchet steps against fresh remote
ephemeral keys `[101 + i]`, each with `previousCounter = 0` so the retiring
chain still holds an unconsumed message key and is archived rather than
deleted. -/
def c9Run (n : Nat) : Except ProtoErr Session :=
  (List.range n).foldlM
    (fun s i => maybeStepRatchet toyPrims (List.replicate 32 3) 0 s [101 + i] 0)
    c9Session

/-- C9 (code_bug): the old-chain registry grows by one entry per ratchet
step with no cap — six steps leave six `oldRatchetList` entries (already
above the specification's example cap of five), and nothing in the model
ever removes an entry: the source appends to `oldRatchetList`
unconditionally and its `removeOldChains(session)` call is a commented-out
TODO. -/
theorem C9_oldRatchetList_unbounded :
    (okOf (c9Run 6)).map (fun s => s.oldRatchetList.length) = some 6 := by
  decide

/-! ## Claim C1 -/

/-- A minimal structural stand-in for the external
`decodeWhisperMessageProtobuf`: byte 0 names the ephemeral key, byte 1 the
counter, byte 2 the previous counter, the rest is the ciphertext. -/
def toyDecode : Bytes → Option WhisperMsg :=
  fun proto =>
    match proto with
    | e :: c :: p :: rest =>
      some { ephemeralKey := [e], counter := (c : Int),
             previousCounter := (p : Int), ciphertext := rest }
    | _ => none

def c1ChainKey0 : Bytes := List.replicate 32 7

def c1Session : Session :=
  { currentRatchet :=
      { rootKey := List.replicate 32 0, ephemeralKeyPair := ⟨[6], [5]⟩,
        lastRemoteEphemeralKey := [7] },
    oldRatchetList := [],
    chains := [([7],
      { messageKeys := [], chainKey := { counter := -1, key := c1ChainKey0 } })] }

def c1Store : KeyStore := { keyPairs := [], sessions := [(3, c1Session)] }

def c1Keys : Bytes × Bytes :=
  HKDF toyHmac (toyHmac c1ChainKey0 [1]) (List.replicate 32 0)
    infoWhisperMessageKeys

def c1Plain : Bytes := [10, 20, 30]

def c1Proto : Bytes := 7 :: 0 :: 0 :: (c1Keys.1 ++ c1Plain)

def c1Mac : Bytes := (toyHmac c1Keys.2 (34 :: c1Proto)).take 8

/-- The validly produced wire message at counter 0: version byte, protobuf
body, 8-byte truncated MAC over version byte and body (computed with the
session's derived mac key; the scenario instantiates the HMAC primitive by
`toyHmac`, the control flow under scrutiny being independent of the hash). -/
def c1Wire : Bytes := 34 :: c1Proto ++ c1Mac

/-- The same wire message with one bit of the last ciphertext byte flipped
(30 becomes 31), MAC unchanged. -/
def c1TamperedWire : Bytes :=
  34 :: (7 :: 0 :: 0 :: (c1Keys.1 ++ [10, 20, 31])) ++ c1Mac

/-- C1 (code_bug): MAC failure does not stop decryption.  The untampered
message decrypts with the MAC comparison holding (first conjunct).
Flipping one bit of the ciphertext makes the truncated-MAC comparison fail
(`macValid = false`) — yet `decryptWhisperMessage` still attempts and
completes the AES-CTR decryption and returns the (now corrupted) plaintext
as a success (second conjunct), because the source's
`verifyMACWithVersionByte` performs its comparison and `Bad MAC` throw
inside a promise that is neither returned nor awaited. -/
theorem C1_tampered_message_still_decrypted :
    (okOf (decryptWhisperMessage toyPrims toyDecode (List.replicate 32 1) 0
        c1Store 3 c1Wire)).map (fun r => (r.1.macValid, r.1.plaintext)) =
      some (true, c1Plain) ∧
    (okOf (decryptWhisperMessage toyPrims toyDecode (List.replicate 32 1) 0
        c1Store 3 c1TamperedWire)).map (fun r => (r.1.macValid, r.1.plaintext)) =
      some (false, [10, 20, 31]) := by
  decide

/-! ## Claim C5 -/

def c5ChainKey0 : Bytes := List.replicate 32 8

def c5Session : Session :=
  { currentRatchet :=
      { rootKey := List.replicate 32 0, ephemeralKeyPair := ⟨[6], [5]⟩,
        lastRemoteEphemeralKey := [7] },
    oldRatchetList := [],
    chains := [([7],
      { messageKeys := [], chainKey := { counter := -1, key := c5ChainKey0 } })] }

def c5Store : KeyStore := { keyPairs := [], sessions := [(3, c5Session)] }

/-- The per-message key pair the chain yields at counter `i`: message key
`HMAC(chainKeyIter i, 0x01)` pushed through the WhisperMessageKeys
derivation. -/
def c5Keys (i : Nat) : Bytes × Bytes :=
  HKDF toyHmac (toyHmac (chainKeyIter toyHmac c5ChainKey0 i) [1])
    (List.replicate 32 0) infoWhisperMessageKeys

def c5Plain (i : Nat) : Bytes := [40 + i]

def c5Proto (i : Nat) : Bytes := 7 :: i :: 0 :: ((c5Keys i).1 ++ c5Plain i)

def c5Mac (i : Nat) : Bytes := (toyHmac (c5Keys i).2 (34 :: c5Proto i)).take 8

/-- The wire message validly produced at send-chain counter `i`. -/
def c5Wire (i : Nat) : Bytes := 34 :: c5Proto i ++ c5Mac i

def c5Dec (st : KeyStore) (i : Nat) : Except ProtoErr (DecOutcome × KeyStore) :=
  decryptWhisperMessage toyPrims toyDecode (List.replicate 32 1) 0 st 3 (c5Wire i)

/-- Messages with counters 0, 1, 2 delivered in the order 2, 0, 1, followed
by a second delivery of the counter-0 message; collects each outcome's
plaintext and MAC flag and the final attempt's error. -/
def c5Run :
    Option ((Bytes × Bool) × (Bytes × Bool) × (Bytes × Bool) × Option ProtoErr) :=
  (okOf (c5Dec c5Store 2)).bind fun r2 =>
  (okOf (c5Dec r2.2 0)).bind fun r0 =>
  (okOf (c5Dec r0.2 1)).bind fun r1 =>
  some ((r2.1.plaintext, r2.1.macValid), (r0.1.plaintext, r0.1.macValid),
        (r1.1.plaintext, r1.1.macValid), errOf (c5Dec r1.2 0))

/-- C5 counterexample: the second decrypt attempt of the consumed counter-0
message does not fail with the specified duplicate-message error — it fails
with `undefinedInput` (the absent message key is fed, undefined, into the
HMAC primitive, whose rejection surfaces as an unhandled promise
rejection), and that is a different error from `duplicateMessage`. -/
theorem C5_counterexample :
    c5Run.map (fun r => r.2.2.2) = some (some .undefinedInput) ∧
    (ProtoErr.undefinedInput ≠ .duplicateMessage) := by
  decide

/-- C5 (corrected, amended claim): messages encrypted at counters 0, 1, 2
and delivered in the order 2, 0, 1 each decrypt to their original plaintext
exactly once (each with the MAC comparison holding), the message key being
erased on first consumption; the second decrypt attempt of the counter-0
message then fails — but with the undefined-message-key failure
(`undefinedInput`, an unhandled rejection inside the HMAC call), not with a
protocol-level duplicate-message error, which the source nowhere
implements. -/
theorem C5_out_of_order_exactly_once :
    c5Run = some ((c5Plain 2, true), (c5Plain 0, true), (c5Plain 1, true),
      some .undefinedInput) := by
  decide

end TextSecure
